import Mathlib

/-!
Shallow embedding of `src/main.py` (Conway's Game of Life, Tkinter GUI).

The simulation-relevant state of a `Cell` object is its boolean `alive`
flag; the board `GameOfLife.grid` is a Python list of lists of cells, so
it is embedded as `List (List Bool)`.  The canvas handles, colours and
the Tk scheduling (`root.after`) carry no simulation state and are not
embedded.  Python list subscription `l[i]` is embedded by `pyGet?`: an
index `0 ≤ i < len(l)` is used as is, a negative index `-len(l) ≤ i < 0`
wraps to `len(l) + i`, and any other index raises `IndexError`, embedded
as `none`.
-/

namespace GameOfLife

/-- A grid of cells, each cell reduced to its `alive` flag. -/
abbrev Grid := List (List Bool)

/-- Resolve a Python list index against a list of length `n`:
`0 ≤ i < n` is used as is, `-n ≤ i < 0` wraps to `n + i`, anything else
raises `IndexError` (`none`). -/
def pyResolve (n : Nat) (i : Int) : Option Nat :=
  if 0 ≤ i ∧ i < (n : Int) then some i.toNat
  else if -(n : Int) ≤ i ∧ i < 0 then some (i + n).toNat
  else none

/-- Python `l[i]` for an arbitrary integer index. -/
def pyGet? {α : Type} (l : List α) (i : Int) : Option α :=
  (pyResolve l.length i).bind fun k => l[k]?

/-- Python `grid[i][j]`; an `IndexError` from either subscript is `none`. -/
def pyGet2? (g : Grid) (i j : Int) : Option Bool :=
  (pyGet? g i).bind fun row => pyGet? row j

/-- The row `grid[r]` at a `Nat` index, `[]` when out of range. -/
def rowAt (g : Grid) (r : Nat) : List Bool := (g[r]?).getD []

/-- `len(self.grid[row])` at a `Nat` index. -/
def rowLen (g : Grid) (r : Nat) : Nat := (rowAt g r).length

/-- The `alive` flag of the cell `grid[r][c]`, `false` when out of range. -/
def getRC (g : Grid) (r c : Nat) : Bool := ((rowAt g r)[c]?).getD false

/-- One iteration of the double loop in `Cell.alive_neighbours` for the
cell at `(row, col)`, at loop indices `(i, j)`: `continue` on the cell
itself and on an index equal to `-1`, then `try: if grid[i][j].alive:
num_alive += 1 except IndexError: pass`. -/
def neighbour_contrib (g : Grid) (row col i j : Int) : Nat :=
  if i = row ∧ j = col then 0
  else if i = -1 ∨ j = -1 then 0
  else match pyGet2? g i j with
       | some true => 1
       | _ => 0

/-- `Cell.alive_neighbours` for the cell at `(row, col)`: the double loop
over `i in (row-1, row, row+1)` and `j in (col-1, col, col+1)`. -/
def alive_neighbours (g : Grid) (row col : Int) : Nat :=
  (([row - 1, row, row + 1].map fun i =>
    (([col - 1, col, col + 1].map fun j => neighbour_contrib g row col i j).sum)).sum)

/-- `Cell.cell_fate` for the cell at `(row, col)` with `self.alive = alive`:
`true` means the cell's state will be changed by `start_game`. -/
def cell_fate (g : Grid) (row col : Int) (alive : Bool) : Bool :=
  if alive then decide (alive_neighbours g row col < 2) || decide (alive_neighbours g row col > 3)
  else decide (alive_neighbours g row col = 3)

/-- The effect on the grid of `cell.change_colour()` for the cell object
`grid[r][c]`: the cell's `alive` flag is inverted in place (`False` goes
to `True`, otherwise `reset()` sets it to `False`). -/
def change_colour_at (g : Grid) (r c : Nat) : Grid :=
  g.set r ((rowAt g r).set c (!getRC g r c))

/-- The first double loop of `GameOfLife.start_game`: collect (the
positions of) every cell whose `cell_fate()` is true, reading the grid
before any mutation. -/
def change_cells (g : Grid) : List (Nat × Nat) :=
  (List.range g.length).flatMap fun (row : Nat) =>
    (List.range (rowLen g row)).filterMap fun (col : Nat) =>
      if cell_fate g (row : Int) (col : Int) (getRC g row col) then some (row, col) else none

/-- The second loop of `GameOfLife.start_game`: `cell.change_colour()` on
each collected cell, in order. -/
def apply_changes (g : Grid) (cs : List (Nat × Nat)) : Grid :=
  cs.foldl (fun h p => change_colour_at h p.1 p.2) g

/-- One generation step of `GameOfLife.start_game`, minus the Tk
re-scheduling: the new grid together with the list of changed cells. -/
def start_game_step (g : Grid) : Grid × List (Nat × Nat) :=
  (apply_changes g (change_cells g), change_cells g)

/-- `GameOfLife.reset_game`: the double loop calls `cell.reset()` on every
cell, setting each `alive` flag to `False`; the grid keeps its shape. -/
def reset_game (g : Grid) : Grid := g.map fun row => row.map fun _ => false

/-- The double loop of `GameOfLife.create_grid`, generalised over the two
`range(50)` bounds: `rows` rows are appended, each holding `cols` cells
created by `Cell.__init__` with `alive = False`. -/
def create_grid_loop (rows cols : Nat) : Grid :=
  (List.range rows).map fun _ => (List.range cols).map fun _ => false

/-- `GameOfLife.create_grid`: the fixed 50×50 board. -/
def create_grid : Grid := create_grid_loop 50 50

/-- `int((c/10) - 1)` for an integer canvas coordinate `c`, under Python 3
true division: `(c/10) - 1` is the exact rational `(c-10)/10` (the float
arithmetic is exact at this scale), and `int` truncates toward zero,
which is `Int.div`. -/
def coord_to_index (c : Int) : Int := Int.tdiv (c - 10) 10

/-- `GameOfLife.get_cell_position(x, y)`, returning `(row, col)`. -/
def get_cell_position (x y : Int) : Int × Int := (coord_to_index y, coord_to_index x)

/-- `cell = self.grid[row][col]; cell.change_colour()` with Python list
indexing: an in-range or wrapped negative index inverts that cell's
`alive` flag, an `IndexError` (`none`) propagates uncaught, the grid
unchanged. -/
def toggle_rc (g : Grid) (row col : Int) : Option Grid :=
  match pyResolve g.length row with
  | none => none
  | some r =>
    match pyResolve (rowLen g r) col with
    | none => none
    | some c => some (change_colour_at g r c)

/-- `GameOfLife.toggle_cell` on a click event at canvas coordinates `(x, y)`. -/
def toggle_cell (g : Grid) (x y : Int) : Option Grid :=
  toggle_rc g (get_cell_position x y).1 (get_cell_position x y).2

/-! Spec-side definitions, written from the spec's words, to be compared
with the code-side definitions above. -/

/-- Whether position `(i, j)` lies inside the grid bounds. -/
def in_bounds (g : Grid) (i j : Int) : Bool :=
  decide (0 ≤ i) && decide (i < (g.length : Int)) &&
  decide (0 ≤ j) && decide (j < (rowLen g i.toNat : Int))

/-- The spec-side contribution of one candidate neighbour position: 1 when
it is inside the grid bounds and alive, 0 otherwise (out of bounds counts
as dead, never wrapped). -/
def neighbour_term (g : Grid) (i j : Int) : Nat :=
  if in_bounds g i j && getRC g i.toNat j.toNat then 1 else 0

/-- The spec's `count_alive_neighbors`: examine exactly the 8 positions at
row ±1, col ±1 excluding the cell itself, a candidate outside the grid
bounds counting as dead. -/
def count_alive_neighbors (g : Grid) (row col : Int) : Nat :=
  neighbour_term g (row - 1) (col - 1) + neighbour_term g (row - 1) col +
  neighbour_term g (row - 1) (col + 1) + neighbour_term g row (col - 1) +
  neighbour_term g row (col + 1) + neighbour_term g (row + 1) (col - 1) +
  neighbour_term g (row + 1) col + neighbour_term g (row + 1) (col + 1)

/-- The per-cell transition as performed by `start_game`: a cell whose
`cell_fate()` is true has its `alive` flag inverted, any other cell keeps
its state. -/
def next_cell_state (g : Grid) (row col : Int) (alive : Bool) : Bool :=
  if cell_fate g row col alive then !alive else alive

/-- The spec's simultaneous one-generation update: every cell's next state
is computed from the frozen pre-call grid. -/
def next_generation (g : Grid) : Grid :=
  (List.range g.length).map fun (r : Nat) =>
    (List.range (rowLen g r)).map fun (c : Nat) =>
      next_cell_state g (r : Int) (c : Int) (getRC g r c)

/-! Basic facts about rows, cells and in-place cell inversion. -/

theorem rowLen_of_le {g : Grid} {r : Nat} (h : g.length ≤ r) : rowLen g r = 0 := by
  simp [rowLen, rowAt, List.getElem?_eq_none h]

theorem getRC_of_len_le {g : Grid} {r c : Nat} (h : g.length ≤ r) : getRC g r c = false := by
  simp [getRC, rowAt, List.getElem?_eq_none h]

theorem getRC_of_rowLen_le {g : Grid} {r c : Nat} (h : rowLen g r ≤ c) : getRC g r c = false := by
  simp [getRC, List.getElem?_eq_none h]

theorem length_change_colour_at (g : Grid) (r c : Nat) :
    (change_colour_at g r c).length = g.length := by
  simp [change_colour_at]

theorem change_colour_at_of_le {g : Grid} {r : Nat} (c : Nat) (h : g.length ≤ r) :
    change_colour_at g r c = g := by
  simp [change_colour_at, List.set_eq_of_length_le h]

theorem rowAt_set {g : Grid} {r : Nat} (row : List Bool) (hr : r < g.length) :
    rowAt (g.set r row) r = row := by
  simp [rowAt, List.getElem?_set_self hr]

theorem rowLen_change_colour_at (g : Grid) (r c r' : Nat) :
    rowLen (change_colour_at g r c) r' = rowLen g r' := by
  by_cases hr : r < g.length
  · by_cases hrr : r' = r
    · subst hrr
      simp [rowLen, change_colour_at, rowAt_set _ hr]
    · simp [rowLen, change_colour_at, rowAt, List.getElem?_set_ne (fun h => hrr h.symm)]
  · rw [change_colour_at_of_le c (Nat.le_of_not_lt hr)]

theorem getRC_change_colour_at_self {g : Grid} {r c : Nat} (hr : r < g.length)
    (hc : c < rowLen g r) : getRC (change_colour_at g r c) r c = !getRC g r c := by
  simp [getRC, change_colour_at, rowAt_set _ hr, List.getElem?_set_self hc]

theorem getRC_change_colour_at_ne {g : Grid} {r c r' c' : Nat} (h : ¬(r' = r ∧ c' = c)) :
    getRC (change_colour_at g r c) r' c' = getRC g r' c' := by
  by_cases hr : r < g.length
  · by_cases hrr : r' = r
    · subst hrr
      have hcc : c' ≠ c := fun e => h ⟨rfl, e⟩
      simp [getRC, change_colour_at, rowAt_set _ hr, List.getElem?_set_ne (fun e => hcc e.symm)]
    · simp [getRC, change_colour_at, rowAt, List.getElem?_set_ne (fun e => hrr e.symm)]
  · rw [change_colour_at_of_le c (Nat.le_of_not_lt hr)]

/-! The deferred-apply loop: shape preservation and its pointwise effect. -/

theorem apply_changes_nil (g : Grid) : apply_changes g [] = g := rfl

theorem apply_changes_cons (g : Grid) (p : Nat × Nat) (cs : List (Nat × Nat)) :
    apply_changes g (p :: cs) = apply_changes (change_colour_at g p.1 p.2) cs := rfl

theorem length_apply_changes (g : Grid) (cs : List (Nat × Nat)) :
    (apply_changes g cs).length = g.length := by
  induction cs generalizing g with
  | nil => rfl
  | cons p cs ih => rw [apply_changes_cons, ih, length_change_colour_at]

theorem rowLen_apply_changes (g : Grid) (cs : List (Nat × Nat)) (r : Nat) :
    rowLen (apply_changes g cs) r = rowLen g r := by
  induction cs generalizing g with
  | nil => rfl
  | cons p cs ih => rw [apply_changes_cons, ih, rowLen_change_colour_at]

theorem getRC_apply_changes (g : Grid) (cs : List (Nat × Nat))
    (hb : ∀ p ∈ cs, p.1 < g.length ∧ p.2 < rowLen g p.1) (hn : cs.Nodup) (r c : Nat) :
    getRC (apply_changes g cs) r c =
      if (r, c) ∈ cs then !getRC g r c else getRC g r c := by
  induction cs generalizing g with
  | nil => simp [apply_changes_nil]
  | cons p cs ih =>
    rw [apply_changes_cons]
    rcases List.nodup_cons.mp hn with ⟨hp, hn'⟩
    have hpb := hb p (List.mem_cons_self p cs)
    have hb' : ∀ q ∈ cs, q.1 < (change_colour_at g p.1 p.2).length ∧
        q.2 < rowLen (change_colour_at g p.1 p.2) q.1 := by
      intro q hq
      rw [length_change_colour_at, rowLen_change_colour_at]
      exact hb q (List.mem_cons_of_mem p hq)
    rw [ih (change_colour_at g p.1 p.2) hb' hn']
    by_cases hrc : (r, c) = p
    · have hmem : (r, c) ∉ cs := hrc ▸ hp
      have h1 : r = p.1 := by rw [← hrc]
      have h2 : c = p.2 := by rw [← hrc]
      subst h1; subst h2
      simp only [hmem, if_neg, List.mem_cons, hrc, true_or, if_pos]
      exact getRC_change_colour_at_self hpb.1 hpb.2
    · have hne : ¬(r = p.1 ∧ c = p.2) := by
        intro ⟨e1, e2⟩; exact hrc (Prod.ext e1 e2)
      rw [getRC_change_colour_at_ne hne]
      simp [List.mem_cons, hrc]

/-! The collection loop: membership and absence of duplicates. -/

theorem mem_change_cells {g : Grid} {r c : Nat} :
    (r, c) ∈ change_cells g ↔
      r < g.length ∧ c < rowLen g r ∧ cell_fate g (r : Int) (c : Int) (getRC g r c) = true := by
  constructor
  · intro h
    rcases List.mem_flatMap.mp h with ⟨row, hrow, hmem⟩
    rcases List.mem_filterMap.mp hmem with ⟨col, hcol, heq⟩
    by_cases hf : cell_fate g (row : Int) (col : Int) (getRC g row col) = true
    · rw [if_pos hf] at heq
      obtain ⟨e1, e2⟩ := Prod.mk.injEq .. ▸ Option.some.inj heq
      subst e1; subst e2
      exact ⟨List.mem_range.mp hrow, List.mem_range.mp hcol, hf⟩
    · rw [if_neg hf] at heq
      exact absurd heq (Option.noConfusion)
  · intro ⟨h1, h2, h3⟩
    refine List.mem_flatMap.mpr ⟨r, List.mem_range.mpr h1, ?_⟩
    refine List.mem_filterMap.mpr ⟨c, List.mem_range.mpr h2, ?_⟩
    rw [if_pos h3]

theorem fst_of_mem_change_block {g : Grid} {row : Nat} {p : Nat × Nat}
    (h : p ∈ (List.range (rowLen g row)).filterMap fun (col : Nat) =>
      if cell_fate g (row : Int) (col : Int) (getRC g row col) then some (row, col)
      else none) : p.1 = row := by
  rcases List.mem_filterMap.mp h with ⟨col, _, heq⟩
  by_cases hf : cell_fate g (row : Int) (col : Int) (getRC g row col) = true
  · rw [if_pos hf] at heq
    rw [← Option.some.inj heq]
  · rw [if_neg hf] at heq
    exact absurd heq (Option.noConfusion)

theorem nodup_change_cells (g : Grid) : (change_cells g).Nodup := by
  refine List.nodup_flatMap.mpr ⟨?_, ?_⟩
  · intro row _
    refine List.Nodup.filterMap ?_ (List.nodup_range _)
    intro a a' b hb hb'
    have e1 : b.2 = a := by
      rcases Option.mem_def.mp hb with heq
      by_cases hf : cell_fate g (row : Int) (a : Int) (getRC g row a) = true
      · rw [if_pos hf] at heq
        rw [← Option.some.inj heq]
      · rw [if_neg hf] at heq
        exact absurd heq (Option.noConfusion)
    have e2 : b.2 = a' := by
      rcases Option.mem_def.mp hb' with heq
      by_cases hf : cell_fate g (row : Int) (a' : Int) (getRC g row a') = true
      · rw [if_pos hf] at heq
        rw [← Option.some.inj heq]
      · rw [if_neg hf] at heq
        exact absurd heq (Option.noConfusion)
    rw [← e1, e2]
  · refine List.Pairwise.imp ?_ (List.nodup_range g.length)
    intro a b hab
    intro p hp hq
    exact hab ((fst_of_mem_change_block hp) ▸ (fst_of_mem_change_block hq) ▸ rfl)

/-! Grid extensionality and the spec-side generation. -/

theorem rowAt_eq_getElem {g : Grid} {r : Nat} (hr : r < g.length) : rowAt g r = g[r] := by
  simp [rowAt, List.getElem?_eq_getElem hr]

theorem grid_ext {g₁ g₂ : Grid} (h1 : g₁.length = g₂.length)
    (h2 : ∀ r, rowLen g₁ r = rowLen g₂ r) (h3 : ∀ r c, getRC g₁ r c = getRC g₂ r c) :
    g₁ = g₂ := by
  refine List.ext_getElem? fun r => ?_
  by_cases hr : r < g₁.length
  · have hr2 : r < g₂.length := h1 ▸ hr
    rw [List.getElem?_eq_getElem hr, List.getElem?_eq_getElem hr2]
    rw [← rowAt_eq_getElem hr, ← rowAt_eq_getElem hr2]
    refine congrArg some (List.ext_getElem? fun c => ?_)
    by_cases hc : c < rowLen g₁ r
    · have hc2 : c < rowLen g₂ r := h2 r ▸ hc
      rw [List.getElem?_eq_getElem hc, List.getElem?_eq_getElem hc2]
      have e1 : getRC g₁ r c = (rowAt g₁ r)[c] := by
        simp [getRC, List.getElem?_eq_getElem hc]
      have e2 : getRC g₂ r c = (rowAt g₂ r)[c] := by
        simp [getRC, List.getElem?_eq_getElem hc2]
      rw [← e1, ← e2, h3 r c]
    · have hc2 : rowLen g₂ r ≤ c := h2 r ▸ Nat.le_of_not_lt hc
      rw [List.getElem?_eq_none (Nat.le_of_not_lt hc), List.getElem?_eq_none hc2]
  · rw [List.getElem?_eq_none (Nat.le_of_not_lt hr),
      List.getElem?_eq_none (h1 ▸ Nat.le_of_not_lt hr)]

theorem length_next_generation (g : Grid) : (next_generation g).length = g.length := by
  simp [next_generation]

theorem rowAt_next_generation {g : Grid} {r : Nat} (hr : r < g.length) :
    rowAt (next_generation g) r =
      (List.range (rowLen g r)).map fun (c : Nat) =>
        next_cell_state g (r : Int) (c : Int) (getRC g r c) := by
  simp [next_generation, rowAt, List.getElem?_map, List.getElem?_range hr]

theorem rowLen_next_generation (g : Grid) (r : Nat) :
    rowLen (next_generation g) r = rowLen g r := by
  by_cases hr : r < g.length
  · simp [rowLen, rowAt_next_generation hr]
  · rw [rowLen_of_le (Nat.le_of_not_lt hr),
      rowLen_of_le (by rw [length_next_generation]; exact Nat.le_of_not_lt hr)]

theorem getRC_next_generation {g : Grid} {r c : Nat} (hr : r < g.length)
    (hc : c < rowLen g r) :
    getRC (next_generation g) r c = next_cell_state g (r : Int) (c : Int) (getRC g r c) := by
  simp [getRC, rowAt_next_generation hr, List.getElem?_map, List.getElem?_range hc]

theorem change_cells_bounds (g : Grid) :
    ∀ p ∈ change_cells g, p.1 < g.length ∧ p.2 < rowLen g p.1 := by
  intro p hp
  obtain ⟨h1, h2, _⟩ := mem_change_cells.mp ((Prod.mk.eta (p := p)) ▸ hp)
  exact ⟨h1, h2⟩

/-- C2 — For every grid state, one call to the advance-one-generation
operation (`start_game`'s collect-then-apply loops) produces exactly the
grid obtained by applying the per-cell transition rule to every cell
simultaneously on the snapshot of the grid taken before any mutation in
that call: no cell's new state is influenced by another cell's
already-updated state within the same step. -/
theorem start_game_step_eq_next_generation (g : Grid) :
    (start_game_step g).1 = next_generation g := by
  show apply_changes g (change_cells g) = next_generation g
  refine grid_ext ?_ ?_ ?_
  · rw [length_apply_changes, length_next_generation]
  · intro r
    rw [rowLen_apply_changes, rowLen_next_generation]
  · intro r c
    rw [getRC_apply_changes g (change_cells g) (change_cells_bounds g) (nodup_change_cells g)]
    by_cases hin : r < g.length ∧ c < rowLen g r
    · rw [getRC_next_generation hin.1 hin.2]
      by_cases hf : cell_fate g (r : Int) (c : Int) (getRC g r c) = true
      · rw [if_pos (mem_change_cells.mpr ⟨hin.1, hin.2, hf⟩)]
        simp [next_cell_state, hf]
      · rw [if_neg (fun hm => hf (mem_change_cells.mp hm).2.2)]
        simp [next_cell_state, hf]
    · have hnm : (r, c) ∉ change_cells g := fun hm => by
        obtain ⟨h1, h2, _⟩ := mem_change_cells.mp hm
        exact hin ⟨h1, h2⟩
      rw [if_neg hnm]
      rcases Nat.lt_or_ge r g.length with hr | hr
      · have hc : rowLen g r ≤ c := by
          rcases Nat.lt_or_ge c (rowLen g r) with hc | hc
          · exact absurd ⟨hr, hc⟩ hin
          · exact hc
        rw [getRC_of_rowLen_le hc,
          getRC_of_rowLen_le (by rw [rowLen_next_generation]; exact hc)]
      · rw [getRC_of_len_le hr,
          getRC_of_len_le (by rw [length_next_generation]; exact hr)]

/-- C4 — The list of cells that `start_game` passes to the redraw step
(`change_cells`, returned as the second component here) is exactly, and
without duplicates, the set of positions whose alive state differs
between the generation before the call and the generation after it. -/
theorem change_cells_exactly_changed (g : Grid) :
    (start_game_step g).2.Nodup ∧
      ∀ r c : Nat, ((r, c) ∈ (start_game_step g).2 ↔
        getRC (start_game_step g).1 r c ≠ getRC g r c) := by
  refine ⟨nodup_change_cells g, fun r c => ?_⟩
  show (r, c) ∈ change_cells g ↔ getRC (apply_changes g (change_cells g)) r c ≠ getRC g r c
  rw [getRC_apply_changes g (change_cells g) (change_cells_bounds g) (nodup_change_cells g)]
  by_cases hm : (r, c) ∈ change_cells g
  · rw [if_pos hm]
    simp [hm]
  · rw [if_neg hm]
    simp [hm]

/-- C1 — For every in-bounds cell, the per-cell transition follows
Conway's rule: a currently alive cell stays alive in the next generation
iff its alive-neighbour count is 2 or 3 (it dies when the count is < 2 or
> 3), and a currently dead cell becomes alive iff its alive-neighbour
count is exactly 3, otherwise it stays dead. -/
theorem cell_transition_conway (g : Grid) (r c : Nat) (hr : r < g.length)
    (hc : c < rowLen g r) :
    next_cell_state g (r : Int) (c : Int) (getRC g r c) =
      (if getRC g r c then
        decide (alive_neighbours g (r : Int) (c : Int) = 2 ∨
          alive_neighbours g (r : Int) (c : Int) = 3)
       else decide (alive_neighbours g (r : Int) (c : Int) = 3)) := by
  cases hg : getRC g r c
  · simp [next_cell_state, cell_fate, hg]
  · rw [Bool.eq_iff_iff]
    simp only [next_cell_state, cell_fate, hg, if_true, Bool.or_eq_true, decide_eq_true_eq]
    by_cases h1 : alive_neighbours g (r : Int) (c : Int) < 2 ∨
        alive_neighbours g (r : Int) (c : Int) > 3
    · simp only [if_pos h1, Bool.not_true]
      constructor
      · intro h; exact absurd h (by simp)
      · intro h; omega
    · simp only [if_neg h1, Bool.not_true]
      constructor
      · intro _; omega
      · intro _; trivial

/-- C1 witness — a live cell with two live neighbours, on the grid
`[[true, true], [true, false]]`, at position (0, 0). -/
theorem cell_transition_conway_witness :
    0 < ([[true, true], [true, false]] : Grid).length ∧
    0 < rowLen ([[true, true], [true, false]] : Grid) 0 ∧
    next_cell_state ([[true, true], [true, false]] : Grid) 0 0
        (getRC ([[true, true], [true, false]] : Grid) 0 0) =
      (if getRC ([[true, true], [true, false]] : Grid) 0 0 then
        decide (alive_neighbours ([[true, true], [true, false]] : Grid) 0 0 = 2 ∨
          alive_neighbours ([[true, true], [true, false]] : Grid) 0 0 = 3)
       else decide (alive_neighbours ([[true, true], [true, false]] : Grid) 0 0 = 3)) :=
  ⟨by decide, by decide,
    cell_transition_conway [[true, true], [true, false]] 0 0 (by decide) (by decide)⟩

/-- The 10×10 test grid of C6: a fully-alive 2×2 block at
rows {5, 6} × cols {5, 6}, every other cell dead. -/
def block_grid : Grid :=
  (List.range 10).map fun r => (List.range 10).map fun c =>
    decide ((r = 5 ∨ r = 6) ∧ (c = 5 ∨ c = 6))

/-- C6 — the 2×2 block is stable: each of its 4 cells has exactly 3 alive
neighbours, and one generation step changes no cell and reports an empty
changed list. -/
theorem block_grid_stable :
    alive_neighbours block_grid 5 5 = 3 ∧ alive_neighbours block_grid 5 6 = 3 ∧
    alive_neighbours block_grid 6 5 = 3 ∧ alive_neighbours block_grid 6 6 = 3 ∧
    start_game_step block_grid = (block_grid, []) := by decide

/-- C7 — `reset_game` leaves every cell dead, and it is idempotent:
running it twice gives exactly the grid of running it once. -/
theorem reset_game_dead_idempotent (g : Grid) (r c : Nat) :
    getRC (reset_game g) r c = false ∧ reset_game (reset_game g) = reset_game g := by
  constructor
  · rcases h : g[r]? with _ | row
    · simp [getRC, rowAt, reset_game, List.getElem?_map, h]
    · rcases h2 : row[c]? with _ | b <;>
        simp [getRC, rowAt, reset_game, List.getElem?_map, h, h2]
  · simp [reset_game, List.map_map, Function.comp]

/-! Neighbour counting: the loop's contributions, bounds, and agreement
with the spec-side 8-position count. -/

theorem neighbour_contrib_le_one (g : Grid) (row col i j : Int) :
    neighbour_contrib g row col i j ≤ 1 := by
  unfold neighbour_contrib
  split
  · omega
  · split
    · omega
    · cases hg : pyGet2? g i j with
      | none => simp [hg]
      | some b => cases b <;> simp [hg]

theorem neighbour_contrib_center (g : Grid) (row col : Int) :
    neighbour_contrib g row col row col = 0 := by
  simp [neighbour_contrib]

theorem neighbour_contrib_eq_term (g : Grid) (row col i j : Int) (hi : -1 ≤ i)
    (hj : -1 ≤ j) (hne : ¬(i = row ∧ j = col)) :
    neighbour_contrib g row col i j = neighbour_term g i j := by
  unfold neighbour_contrib neighbour_term
  rw [if_neg hne]
  by_cases hneg : i = -1 ∨ j = -1
  · rw [if_pos hneg]
    rcases hneg with h | h <;> subst h <;> simp [in_bounds]
  · rw [if_neg hneg]
    have hi0 : 0 ≤ i := by omega
    have hj0 : 0 ≤ j := by omega
    by_cases hil : i < (g.length : Int)
    · have hitn : i.toNat < g.length := by omega
      have hrow : pyGet? g i = some (rowAt g i.toNat) := by
        simp [pyGet?, pyResolve, hi0, hil, rowAt_eq_getElem hitn,
          List.getElem?_eq_getElem hitn]
      by_cases hjl : j < (rowLen g i.toNat : Int)
      · have hjtn : j.toNat < rowLen g i.toNat := by omega
        have hcellrow : (rowAt g i.toNat)[j.toNat]? = some ((rowAt g i.toNat)[j.toNat]) :=
          List.getElem?_eq_getElem hjtn
        have hjl' : j < ((rowAt g i.toNat).length : Int) := hjl
        have hres2 : pyResolve (rowAt g i.toNat).length j = some j.toNat := by
          unfold pyResolve
          rw [if_pos ⟨hj0, hjl'⟩]
        have hcell : pyGet2? g i j = some (getRC g i.toNat j.toNat) := by
          rw [pyGet2?, hrow, Option.some_bind, pyGet?, hres2, Option.some_bind]
          simp [getRC, hcellrow]
        rw [hcell]
        have hib : in_bounds g i j = true := by
          simp [in_bounds, hi0, hil, hj0, hjl]
        rw [hib]
        cases hgb : getRC g i.toNat j.toNat <;> simp [hgb]
      · have hjl' : ¬ j < ((rowAt g i.toNat).length : Int) := hjl
        have hres2 : pyResolve (rowAt g i.toNat).length j = none := by
          unfold pyResolve
          rw [if_neg (by omega), if_neg (by omega)]
        have hcell : pyGet2? g i j = none := by
          rw [pyGet2?, hrow, Option.some_bind, pyGet?, hres2]
          rfl
        rw [hcell]
        have hib : in_bounds g i j = false := by
          simp [in_bounds, hjl]
        rw [hib]
        simp
    · have hres : pyResolve g.length i = none := by
        unfold pyResolve
        rw [if_neg (by omega), if_neg (by omega)]
      have hrow : pyGet? g i = none := by
        rw [pyGet?, hres]
        rfl
      have hcell : pyGet2? g i j = none := by
        rw [pyGet2?, hrow]
        rfl
      rw [hcell]
      have hib : in_bounds g i j = false := by
        simp [in_bounds, hil]
      rw [hib]
      simp

theorem alive_neighbours_expand (g : Grid) (row col : Int) :
    alive_neighbours g row col =
      neighbour_contrib g row col (row - 1) (col - 1) +
      neighbour_contrib g row col (row - 1) col +
      neighbour_contrib g row col (row - 1) (col + 1) +
      neighbour_contrib g row col row (col - 1) +
      neighbour_contrib g row col row col +
      neighbour_contrib g row col row (col + 1) +
      neighbour_contrib g row col (row + 1) (col - 1) +
      neighbour_contrib g row col (row + 1) col +
      neighbour_contrib g row col (row + 1) (col + 1) := by
  simp [alive_neighbours]
  omega

/-- C3 — For every in-bounds cell, `alive_neighbours` examines exactly the
8 positions at row ±1, col ±1 excluding the cell itself: a candidate
position outside the grid bounds contributes nothing (treated as dead,
never wrapped to the opposite edge), so the count equals the spec-side
8-position count; and the count never exceeds 8 on any input. -/
theorem alive_neighbours_correct (g : Grid) (row col : Int) :
    alive_neighbours g row col ≤ 8 ∧
      (0 ≤ row → 0 ≤ col →
        alive_neighbours g row col = count_alive_neighbors g row col) := by
  constructor
  · rw [alive_neighbours_expand]
    have h11 := neighbour_contrib_le_one g row col (row - 1) (col - 1)
    have h12 := neighbour_contrib_le_one g row col (row - 1) col
    have h13 := neighbour_contrib_le_one g row col (row - 1) (col + 1)
    have h21 := neighbour_contrib_le_one g row col row (col - 1)
    have h22 := neighbour_contrib_center g row col
    have h23 := neighbour_contrib_le_one g row col row (col + 1)
    have h31 := neighbour_contrib_le_one g row col (row + 1) (col - 1)
    have h32 := neighbour_contrib_le_one g row col (row + 1) col
    have h33 := neighbour_contrib_le_one g row col (row + 1) (col + 1)
    omega
  · intro h0r h0c
    rw [alive_neighbours_expand, neighbour_contrib_center]
    rw [neighbour_contrib_eq_term g row col (row - 1) (col - 1) (by omega) (by omega) (by omega)]
    rw [neighbour_contrib_eq_term g row col (row - 1) col (by omega) (by omega) (by omega)]
    rw [neighbour_contrib_eq_term g row col (row - 1) (col + 1) (by omega) (by omega) (by omega)]
    rw [neighbour_contrib_eq_term g row col row (col - 1) (by omega) (by omega) (by omega)]
    rw [neighbour_contrib_eq_term g row col row (col + 1) (by omega) (by omega) (by omega)]
    rw [neighbour_contrib_eq_term g row col (row + 1) (col - 1) (by omega) (by omega) (by omega)]
    rw [neighbour_contrib_eq_term g row col (row + 1) col (by omega) (by omega) (by omega)]
    rw [neighbour_contrib_eq_term g row col (row + 1) (col + 1) (by omega) (by omega) (by omega)]
    rw [count_alive_neighbors]
    omega

/-- C3 witness — the corner cell (0, 0) of the grid `[[true, true],
[true, false]]`. -/
theorem alive_neighbours_correct_witness :
    alive_neighbours ([[true, true], [true, false]] : Grid) 0 0 ≤ 8 ∧
      alive_neighbours ([[true, true], [true, false]] : Grid) 0 0 =
        count_alive_neighbors ([[true, true], [true, false]] : Grid) 0 0 :=
  ⟨(alive_neighbours_correct [[true, true], [true, false]] 0 0).1,
    (alive_neighbours_correct [[true, true], [true, false]] 0 0).2 (by decide) (by decide)⟩

/-! Toggling: in-bounds behaviour, Python negative indexing, failure. -/

theorem pyResolve_natCast {n : Nat} (k : Nat) (h : k < n) :
    pyResolve n (k : Int) = some k := by
  unfold pyResolve
  rw [if_pos ⟨Int.natCast_nonneg k, by exact_mod_cast h⟩]
  simp

/-- C8 — For every in-bounds (r, c), `toggle_cell`'s core (`cell =
grid[row][col]; cell.change_colour()`) succeeds and is equivalent to
setting the cell to the negation of its current state: the toggled cell's
flag becomes the logical NOT of its old value and every other cell keeps
its state. -/
theorem toggle_rc_toggles (g : Grid) (r c r' c' : Nat) (hr : r < g.length)
    (hc : c < rowLen g r) :
    toggle_rc g (r : Int) (c : Int) = some (change_colour_at g r c) ∧
    getRC (change_colour_at g r c) r' c' =
      (if r' = r ∧ c' = c then !getRC g r c else getRC g r' c') := by
  constructor
  · simp only [toggle_rc, pyResolve_natCast r hr, pyResolve_natCast c hc]
  · by_cases h : r' = r ∧ c' = c
    · obtain ⟨e1, e2⟩ := h
      subst e1; subst e2
      rw [if_pos ⟨rfl, rfl⟩]
      exact getRC_change_colour_at_self hr hc
    · rw [if_neg h]
      exact getRC_change_colour_at_ne h

/-- C8 witness — toggling cell (0, 0) of `[[true, false]]`, observing
cell (0, 1). -/
theorem toggle_rc_toggles_witness :
    toggle_rc ([[true, false]] : Grid) 0 0 =
        some (change_colour_at ([[true, false]] : Grid) 0 0) ∧
    getRC (change_colour_at ([[true, false]] : Grid) 0 0) 0 1 =
      (if 0 = 0 ∧ 1 = 0 then !getRC ([[true, false]] : Grid) 0 0
       else getRC ([[true, false]] : Grid) 0 1) :=
  toggle_rc_toggles [[true, false]] 0 0 0 1 (by decide) (by decide)

/-- C5 counterexample — calling the toggle operation with row = -1, a
coordinate outside [0, 50), does not fail: it silently toggles the cell
at (49, 0) of the fresh 50×50 grid (Python negative indexing), so the
grid state is changed rather than left intact. -/
theorem toggle_rc_negative_row_mutates :
    toggle_rc create_grid (-1) 0 = some (change_colour_at create_grid 49 0) ∧
    getRC (change_colour_at create_grid 49 0) 49 0 = true ∧
    getRC create_grid 49 0 = false := by decide

/-- C5 amended — the only coordinate-indexed operation, toggle, performs
Python list indexing on both subscripts: a row outside [-rows, rows)
raises an uncaught `IndexError` (`none`) with the grid unchanged;
otherwise the row resolves to `r` (itself when nonnegative, rows + row
when negative), and then — whatever the row's sign — a col in
[0, cols) or in [-cols, 0) raises no error and toggles the addressed
(possibly wrapped) cell, while a col at or above cols, or below -cols,
raises an uncaught `IndexError` (`none`) before any mutation, leaving the
grid unchanged. -/
theorem toggle_rc_python_indexing (g : Grid) (row col : Int) :
    ((row < -(g.length : Int) ∨ (g.length : Int) ≤ row) → toggle_rc g row col = none) ∧
    (∀ r : Nat,
      ((0 ≤ row ∧ row.toNat = r ∧ row < (g.length : Int)) ∨
        (-(g.length : Int) ≤ row ∧ row < 0 ∧ (row + g.length).toNat = r)) →
      ((col < -(rowLen g r : Int) ∨ (rowLen g r : Int) ≤ col) →
        toggle_rc g row col = none) ∧
      (0 ≤ col → col < (rowLen g r : Int) →
        toggle_rc g row col = some (change_colour_at g r col.toNat)) ∧
      (-(rowLen g r : Int) ≤ col → col < 0 →
        toggle_rc g row col =
          some (change_colour_at g r (col + rowLen g r).toNat))) := by
  constructor
  · intro h
    have hres : pyResolve g.length row = none := by
      unfold pyResolve
      rw [if_neg (by omega), if_neg (by omega)]
    simp only [toggle_rc, hres]
  · intro r hcase
    have hres : pyResolve g.length row = some r := by
      unfold pyResolve
      rcases hcase with ⟨h1, h2, h3⟩ | ⟨h1, h2, h3⟩
      · rw [if_pos ⟨h1, h3⟩, h2]
      · rw [if_neg (by omega), if_pos ⟨h1, h2⟩, h3]
    refine ⟨?_, ?_, ?_⟩
    · intro h3
      have hres2 : pyResolve (rowLen g r) col = none := by
        unfold pyResolve
        rw [if_neg (by omega), if_neg (by omega)]
      simp only [toggle_rc, hres, hres2]
    · intro h3 h4
      have hres2 : pyResolve (rowLen g r) col = some col.toNat := by
        unfold pyResolve
        rw [if_pos ⟨h3, h4⟩]
      simp only [toggle_rc, hres, hres2]
    · intro h3 h4
      have hres2 : pyResolve (rowLen g r) col = some (col + rowLen g r).toNat := by
        unfold pyResolve
        rw [if_neg (by omega), if_pos ⟨h3, h4⟩]
      simp only [toggle_rc, hres, hres2]

/-- C5 amended witness — on the grid `[[true, false]]` (1 row, 2 cols):
row 1 raises; with the in-range nonnegative row 0, col 5 raises and
col -1 wraps to cell (0, 1); with the negative row -1 (resolving to
row 0), col 0 toggles (0, 0) and col -2 wraps to (0, 0). -/
theorem toggle_rc_python_indexing_witness :
    toggle_rc ([[true, false]] : Grid) 1 0 = none ∧
    toggle_rc ([[true, false]] : Grid) 0 5 = none ∧
    toggle_rc ([[true, false]] : Grid) 0 (-1) =
      some (change_colour_at ([[true, false]] : Grid) 0 1) ∧
    toggle_rc ([[true, false]] : Grid) (-1) 0 =
      some (change_colour_at ([[true, false]] : Grid) 0 0) ∧
    toggle_rc ([[true, false]] : Grid) (-1) (-2) =
      some (change_colour_at ([[true, false]] : Grid) 0 0) := by
  refine ⟨(toggle_rc_python_indexing [[true, false]] 1 0).1 (by decide), ?_, ?_, ?_, ?_⟩
  · exact ((toggle_rc_python_indexing [[true, false]] 0 5).2 0 (Or.inl (by decide))).1
      (by decide)
  · exact ((toggle_rc_python_indexing [[true, false]] 0 (-1)).2 0 (Or.inl (by decide))).2.2
      (by decide) (by decide)
  · exact ((toggle_rc_python_indexing [[true, false]] (-1) 0).2 0 (Or.inr (by decide))).2.1
      (by decide) (by decide)
  · exact ((toggle_rc_python_indexing [[true, false]] (-1) (-2)).2 0 (Or.inr (by decide))).2.2
      (by decide) (by decide)

/-- C9 counterexample — running the constructor's loops with a
non-positive row count does not fail with any error: it silently yields
the empty grid (`range` of a non-positive count is empty). -/
theorem create_grid_loop_zero_rows : create_grid_loop 0 5 = ([] : Grid) := rfl

/-- C9 amended — the constructor's loops return a grid of the requested
dimensions with every cell dead, with no validation and no failure path;
the source always runs them with the fixed positive dimensions 50×50. -/
theorem create_grid_loop_all_dead (rows cols r c : Nat) (hr : r < rows) :
    (create_grid_loop rows cols).length = rows ∧
    rowLen (create_grid_loop rows cols) r = cols ∧
    getRC (create_grid_loop rows cols) r c = false ∧
    create_grid = create_grid_loop 50 50 := by
  have hlen : rowLen (create_grid_loop rows cols) r = cols := by
    simp [rowLen, rowAt, create_grid_loop, List.getElem?_replicate, hr]
  refine ⟨by simp [create_grid_loop], hlen, ?_, rfl⟩
  by_cases hc : c < cols
  · simp [getRC, rowAt, create_grid_loop, List.getElem?_replicate, hr, hc]
  · exact getRC_of_rowLen_le (by rw [hlen]; exact Nat.le_of_not_lt hc)

/-- C9 amended witness — a 2×3 grid, row 1, column 7. -/
theorem create_grid_loop_all_dead_witness :
    (create_grid_loop 2 3).length = 2 ∧
    rowLen (create_grid_loop 2 3) 1 = 3 ∧
    getRC (create_grid_loop 2 3) 1 7 = false ∧
    create_grid = create_grid_loop 50 50 :=
  create_grid_loop_all_dead 2 3 1 7 (by decide)

theorem coord_to_index_neg {c : Int} (h : c ≤ 0) : coord_to_index c < 0 := by
  have e : (c - 10).tdiv 10 = -((10 - c).tdiv 10) := by
    rw [show c - 10 = -(10 - c) by ring, Int.neg_tdiv]
  have e2 : (10 - c).tdiv 10 = (10 - c) / 10 := Int.tdiv_eq_ediv (by omega) (by omega)
  unfold coord_to_index
  rw [e, e2]
  omega

theorem coord_to_index_eq_neg_one {c : Int} (h1 : -10 < c) (h2 : c ≤ 0) :
    coord_to_index c = -1 := by
  have e : (c - 10).tdiv 10 = -((10 - c).tdiv 10) := by
    rw [show c - 10 = -(10 - c) by ring, Int.neg_tdiv]
  have e2 : (10 - c).tdiv 10 = (10 - c) / 10 := Int.tdiv_eq_ediv (by omega) (by omega)
  unfold coord_to_index
  rw [e, e2]
  omega

/-- C10 counterexample — the click (x, y) = (5, 15) has x < 10, yet the
coordinate mapping yields (0, 0), not a negative index (Python 3 `int`
truncates -0.5 to 0), and the toggle handler toggles the first cell, not
a cell of the last row or column. -/
theorem click_x5_maps_to_zero :
    get_cell_position 5 15 = (0, 0) ∧
    toggle_cell create_grid 5 15 = some (change_colour_at create_grid 0 0) := by decide

/-- C10 amended — a click coordinate ≤ 0 (not merely < 10) yields a
negative index, equal to -1 when the coordinate is in (-10, 0]; the
toggle handler then toggles a cell of the last row or column via Python
negative-list indexing instead of rejecting the coordinate: the click
(0, 15) toggles cell (0, 49) of the fresh 50×50 grid. -/
theorem get_cell_position_negative (x y : Int) :
    (x ≤ 0 → (get_cell_position x y).2 < 0) ∧
    (y ≤ 0 → (get_cell_position x y).1 < 0) ∧
    (-10 < x → x ≤ 0 → (get_cell_position x y).2 = -1) ∧
    toggle_cell create_grid 0 15 = some (change_colour_at create_grid 0 49) := by
  refine ⟨fun h => coord_to_index_neg h, fun h => coord_to_index_neg h,
    fun h1 h2 => coord_to_index_eq_neg_one h1 h2, by decide⟩

/-- C10 amended witness — the click (0, -3). -/
theorem get_cell_position_negative_witness :
    (get_cell_position 0 (-3)).2 < 0 ∧
    (get_cell_position 0 (-3)).1 < 0 ∧
    (get_cell_position 0 (-3)).2 = -1 :=
  ⟨(get_cell_position_negative 0 (-3)).1 (by decide),
    (get_cell_position_negative 0 (-3)).2.1 (by decide),
    (get_cell_position_negative 0 (-3)).2.2.1 (by decide) (by decide)⟩

end GameOfLife
